import Mathlib

/-!
Verification of the conversation-state cache and incremental decode pipeline of
confidant.ai, embedded from src/app/src/main/cpp/llama-jni.cpp.

The JNI layer keeps process-wide globals (all mutations below are guarded by a
single mutex in the source, so the public operations execute sequentially and
are modelled as pure state transformers):
  g_initialized                       -> SessionState.loaded
  the llama context's sequence-0 KV positions -> SessionState.ds
  g_cached_system_prompt / g_cached_system_tokens / g_cached_system_length
                                      -> SessionState.cache

The llama.cpp primitives (tokenize, decode, sample, eog test, token-to-piece)
are external collaborators; they are abstracted as a Backend oracle of
deterministic functions.  llama_decode on a batch appends the batch's tokens at
the next free positions of sequence 0 when it succeeds and leaves the sequence
unchanged when it fails; llama_memory_clear empties the sequence;
llama_memory_seq_rm(mem, 0, p, -1) removes every position that is at least p;
llama_memory_seq_pos_max is (length - 1) as a signed value (-1 when empty).
-/

namespace Confidant

/-- Oracle for the external llama.cpp collaborators consumed by llama-jni.cpp.
tokenize returns none when llama_tokenize reports failure (a non-positive
count on the sizing call or a negative result on the filling call).
decodeOk takes the current sequence-0 contents and the batch and says whether
llama_decode succeeds.  sample is llama_sampler_sample through the fresh
per-call sampler chain, a deterministic function of the decode state. -/
structure Backend where
  loadOk : Bool
  tokenize : String → Bool → Bool → Option (List Nat)
  decodeOk : List Nat → List Nat → Bool
  sample : List Nat → Nat
  isEog : Nat → Bool
  tokenToPiece : Nat → List Nat

/-- Prefix-cache record: the raw system text, its token ids and the token
count (g_cached_system_prompt, g_cached_system_tokens, g_cached_system_length;
the length is an int in C but is only ever 0 or a positive token count). -/
structure CacheRecord where
  text : String
  tokens : List Nat
  count : Nat
deriving Repr, DecidableEq

/-- The mutable globals of llama-jni.cpp relevant to the session layer. -/
structure SessionState where
  loaded : Bool
  ds : List Nat
  cache : CacheRecord
deriving Repr, DecidableEq

/-- Fresh-process globals: nothing loaded, empty sequence, empty cache. -/
def initState : SessionState := ⟨false, [], ⟨"", [], 0⟩⟩

/-- The CHUNK_SIZE / USER_CHUNK_SIZE constant (2048) used by every ingestion
loop in llama-jni.cpp. -/
def CHUNK_SIZE : Nat := 2048

/-- Fuel-indexed unfolding of the chunked-ingestion while loop
(while tokens_processed < n_tokens: decode one chunk of at most CHUNK_SIZE).
Each pass consumes at least one token, so toks.length passes always suffice;
ingestChunks below supplies that fuel.  On decode failure the loop in C
returns an error immediately, leaving the already-decoded chunks in place. -/
def ingestChunksF (B : Backend) : Nat → List Nat → List Nat → Bool × List Nat
  | _, ds, [] => (true, ds)
  | 0, ds, _ :: _ => (true, ds)
  | fuel + 1, ds, t :: ts =>
    let chunk := (t :: ts).take CHUNK_SIZE
    let rest := (t :: ts).drop CHUNK_SIZE
    if B.decodeOk ds chunk then ingestChunksF B fuel (ds ++ chunk) rest
    else (false, ds)

/-- Chunked ingestion of a token sequence (the prompt / system / user
processing loops of llama-jni.cpp).  Returns (success, resulting sequence). -/
def ingestChunks (B : Backend) (ds toks : List Nat) : Bool × List Nat :=
  ingestChunksF B toks.length ds toks

/-- Why the sampling loop stopped: EOS sampled, maxTokens reached, or
llama_decode failed on the one-token feedback batch. -/
inductive StopReason where
  | eos
  | budget
  | ingestFail
deriving Repr, DecidableEq

/-- Result of the sampling loop: the accepted (emitted) tokens in order, the
final sequence contents, and the stop reason. -/
structure LoopOut where
  toks : List Nat
  ds : List Nat
  stop : StopReason
deriving Repr, DecidableEq

/-- The sampling loop shared (textually repeated) by nativeGenerate,
nativeGenerateWithCache and nativeGenerateStreaming:
for (i = 0; i < maxTokens; i++) { sample; if eog break; append piece;
decode one-token batch; if decode fails break; }.
The sampled token is recorded in toks before the decode attempt, matching the
source order (text appended and n_generated incremented before llama_decode),
so on a decode failure the failing token is in toks but not in ds. -/
def samplingLoop (B : Backend) : List Nat → Nat → LoopOut
  | ds, 0 => ⟨[], ds, StopReason.budget⟩
  | ds, n + 1 =>
    let t := B.sample ds
    if B.isEog t then ⟨[], ds, StopReason.eos⟩
    else if B.decodeOk ds [t] then
      let r := samplingLoop B (ds ++ [t]) n
      ⟨t :: r.toks, r.ds, r.stop⟩
    else ⟨[t], ds, StopReason.ingestFail⟩

/-- The bytes accumulated in the response string: each accepted token's raw
piece, in order (an empty piece appends nothing). -/
def render (B : Backend) (toks : List Nat) : List Nat :=
  (toks.map B.tokenToPiece).flatten

/-- The UTF-8 sanitization pass that both blocking paths run on the full
response and the streaming path runs on each token fragment.  Direct
translation of the byte scanner: classify the lead byte, emit a 1/2/3/4-byte
sequence only when every required continuation byte (b and 0xC0 == 0x80) is
present in the buffer (the i + k < length bounds checks), otherwise skip the
single invalid or truncated byte.  The patterns below split the scanner's
bounds checks by how many bytes remain in the buffer; each branch is the
corresponding arm of the if-chain at lines 368-391 / 702-731 / 898-921. -/
def sanitize : List Nat → List Nat
  | [] => []
  | [c] =>
    if c ≤ 0x7F then [c]
    else []
  | [c, c1] =>
    if c ≤ 0x7F then c :: sanitize [c1]
    else if 0xC0 ≤ c ∧ c ≤ 0xDF then
      if c1 &&& 0xC0 = 0x80 then [c, c1] else sanitize [c1]
    else sanitize [c1]
  | [c, c1, c2] =>
    if c ≤ 0x7F then c :: sanitize [c1, c2]
    else if 0xC0 ≤ c ∧ c ≤ 0xDF then
      if c1 &&& 0xC0 = 0x80 then c :: c1 :: sanitize [c2] else sanitize [c1, c2]
    else if 0xE0 ≤ c ∧ c ≤ 0xEF then
      if c1 &&& 0xC0 = 0x80 ∧ c2 &&& 0xC0 = 0x80 then [c, c1, c2]
      else sanitize [c1, c2]
    else sanitize [c1, c2]
  | c :: c1 :: c2 :: c3 :: rest =>
    if c ≤ 0x7F then c :: sanitize (c1 :: c2 :: c3 :: rest)
    else if 0xC0 ≤ c ∧ c ≤ 0xDF then
      if c1 &&& 0xC0 = 0x80 then c :: c1 :: sanitize (c2 :: c3 :: rest)
      else sanitize (c1 :: c2 :: c3 :: rest)
    else if 0xE0 ≤ c ∧ c ≤ 0xEF then
      if c1 &&& 0xC0 = 0x80 ∧ c2 &&& 0xC0 = 0x80 then
        c :: c1 :: c2 :: sanitize (c3 :: rest)
      else sanitize (c1 :: c2 :: c3 :: rest)
    else if 0xF0 ≤ c ∧ c ≤ 0xF7 then
      if c1 &&& 0xC0 = 0x80 ∧ c2 &&& 0xC0 = 0x80 ∧ c3 &&& 0xC0 = 0x80 then
        c :: c1 :: c2 :: c3 :: sanitize rest
      else sanitize (c1 :: c2 :: c3 :: rest)
    else sanitize (c1 :: c2 :: c3 :: rest)

/-- A valid continuation byte, as an unsigned char: in range and with top bits
10xxxxxx (the code tests b and 0xC0 == 0x80 on bytes). -/
def contOk (b : Nat) : Bool :=
  decide (b < 256 ∧ b &&& 0xC0 = 0x80)

/-- Byte sequences accepted whole by the scanner's classifier: a concatenation
of complete 1/2/3/4-byte units per the code's byte classes.  Every genuinely
well-formed UTF-8 string satisfies this (the code's classes are a superset of
the strict UTF-8 ones). -/
def wfUtf8 : List Nat → Bool
  | [] => true
  | [c] => decide (c ≤ 0x7F)
  | [c, c1] =>
    if c ≤ 0x7F then wfUtf8 [c1]
    else decide (0xC0 ≤ c ∧ c ≤ 0xDF) && contOk c1
  | [c, c1, c2] =>
    if c ≤ 0x7F then wfUtf8 [c1, c2]
    else if 0xC0 ≤ c ∧ c ≤ 0xDF then contOk c1 && wfUtf8 [c2]
    else decide (0xE0 ≤ c ∧ c ≤ 0xEF) && contOk c1 && contOk c2
  | c :: c1 :: c2 :: c3 :: rest =>
    if c ≤ 0x7F then wfUtf8 (c1 :: c2 :: c3 :: rest)
    else if 0xC0 ≤ c ∧ c ≤ 0xDF then contOk c1 && wfUtf8 (c2 :: c3 :: rest)
    else if 0xE0 ≤ c ∧ c ≤ 0xEF then contOk c1 && contOk c2 && wfUtf8 (c3 :: rest)
    else
      decide (0xF0 ≤ c ∧ c ≤ 0xF7) && contOk c1 && contOk c2 && contOk c3 &&
        wfUtf8 rest

/-- A nonempty proper prefix of a single multi-byte unit: what remains of a
trailing 2/3/4-byte codepoint after its last 1-3 bytes are removed. -/
def truncUnit : List Nat → Bool
  | [l] => decide (0xC0 ≤ l ∧ l ≤ 0xF7)
  | [l, c1] => decide (0xE0 ≤ l ∧ l ≤ 0xF7) && contOk c1
  | [l, c1, c2] => decide (0xF0 ≤ l ∧ l ≤ 0xF7) && contOk c1 && contOk c2
  | _ => false

/-- The cache decision of nativeGenerateWithCache, line 459:
cache_hit = (current_sys_prompt == g_cached_system_prompt
             and g_cached_system_length > 0).
The comparison is on the raw (unformatted) text. -/
def cacheHitB (sys : String) (c : CacheRecord) : Bool :=
  (sys == c.text) && decide (0 < c.count)

/-- ChatML framing applied to the system prompt before tokenization
(lines 508-510). -/
def fmtSys (sys : String) : String :=
  "<|startoftext|><|im_start|>system\n" ++ sys ++ "<|im_end|>\n"

/-- ChatML framing applied to the user message before tokenization
(lines 589-592). -/
def fmtUser (user : String) : String :=
  "<|im_start|>user\n" ++ user ++ "<|im_end|>\n" ++ "<|im_start|>assistant\n"

/-- The prefix-cache phase of nativeGenerateWithCache (lines 457-585).
Returns (some errorMessage, state) when the C function returns early with an
error string, (none, state) when it falls through to the user phase.
Hit: if seq_pos_max >= cached length, remove every position >= cached length.
Miss: clear the whole sequence, tokenize the framed system prompt, ingest it
in chunks, then overwrite the cache record with the raw text / tokens /
count.  On a mid-ingestion failure the record is not overwritten and the
partially ingested positions remain. -/
def sysPhase (B : Backend) (s : SessionState) (sys : String) :
    Option String × SessionState :=
  if cacheHitB sys s.cache then
    if (s.cache.count : Int) ≤ (s.ds.length : Int) - 1 then
      (none, { s with ds := s.ds.take s.cache.count })
    else
      (none, s)
  else
    let s1 : SessionState := { s with ds := [] }
    match B.tokenize (fmtSys sys) true true with
    | none => (some "Error: System prompt tokenization failed", s1)
    | some ts =>
      if ts.length = 0 then (some "Error: System prompt tokenization failed", s1)
      else
        let r := ingestChunks B s1.ds ts
        if r.1 then
          (none, { loaded := s.loaded, ds := r.2, cache := ⟨sys, ts, ts.length⟩ })
        else
          (some "Error: System prompt processing failed", { s1 with ds := r.2 })

/-- The user-turn phase of nativeGenerateWithCache (lines 587-741): tokenize
the framed user message without BOS/special markers, ingest it in chunks, run
the sampling loop, sanitize and return the response. -/
def userPhase (B : Backend) (s1 : SessionState) (user : String) (maxTokens : Nat) :
    Except String (List Nat) × SessionState :=
  match B.tokenize (fmtUser user) false false with
  | none => (Except.error "Error: User message tokenization failed", s1)
  | some uts =>
    if uts.length = 0 then (Except.error "Error: User message tokenization failed", s1)
    else
      let r := ingestChunks B s1.ds uts
      if r.1 then
        let out := samplingLoop B r.2 maxTokens
        (Except.ok (sanitize (render B out.toks)), { s1 with ds := out.ds })
      else
        (Except.error "Error: User message processing failed", { s1 with ds := r.2 })

/-- nativeGenerate (lines 218-396): plain single-prompt generation.  No cache
interaction and no clearing: the prompt is tokenized with BOS and special
markers, ingested in chunks after whatever is already resident, then the
sampling loop runs and the sanitized response is returned.  Failures are
returned as strings in the same channel (modelled with Except.error). -/
def nativeGenerate (B : Backend) (s : SessionState) (p : String) (maxTokens : Nat) :
    Except String (List Nat) × SessionState :=
  if s.loaded = false then (Except.error "Error: Model not loaded", s)
  else
    match B.tokenize p true true with
    | none => (Except.error "Error: Tokenization failed", s)
    | some toks =>
      if toks.length = 0 then (Except.error "Error: Tokenization failed", s)
      else
        let r := ingestChunks B s.ds toks
        if r.1 then
          let out := samplingLoop B r.2 maxTokens
          (Except.ok (sanitize (render B out.toks)), { s with ds := out.ds })
        else
          (Except.error "Error: Prompt processing failed", { s with ds := r.2 })

/-- nativeGenerateWithCache (lines 425-741): loaded check, then the
prefix-cache phase, then the user-turn phase. -/
def nativeGenerateWithCache (B : Backend) (s : SessionState) (sys user : String)
    (maxTokens : Nat) : Except String (List Nat) × SessionState :=
  if s.loaded = false then (Except.error "Error: Model not loaded", s)
  else
    match sysPhase B s sys with
    | (some msg, s') => (Except.error msg, s')
    | (none, s1) => userPhase B s1 user maxTokens

/-- Events delivered to the streaming callback, in order. -/
inductive SEvent where
  | tok (text : List Nat)
  | complete
  | error (msg : String)
deriving Repr, DecidableEq

/-- The per-token deliveries of the streaming loop: onToken fires for each
accepted token whose piece is nonempty (n_chars > 0), with the fragment
sanitized on its own (lines 895-926). -/
def tokenEvents (B : Backend) (toks : List Nat) : List SEvent :=
  toks.filterMap fun t =>
    let piece := B.tokenToPiece t
    if piece.length = 0 then none else some (SEvent.tok (sanitize piece))

/-- nativeGenerateStreaming (lines 766-960).  validCb says whether the
callback object exposes onToken/onComplete/onError (lines 790-798); when it
does not, the C function returns without delivering anything.  The
not-loaded check precedes the method lookup and reports through onError.
After the loop the function always calls onComplete (line 957) - including
when the loop stopped because a mid-generation decode failed. -/
def nativeGenerateStreaming (B : Backend) (s : SessionState) (p : String)
    (maxTokens : Nat) (validCb : Bool) : List SEvent × SessionState :=
  if s.loaded = false then ([SEvent.error "Model not loaded"], s)
  else if validCb = false then ([], s)
  else
    match B.tokenize p true true with
    | none => ([SEvent.error "Tokenization failed"], s)
    | some toks =>
      if toks.length = 0 then ([SEvent.error "Tokenization failed"], s)
      else
        let r := ingestChunks B s.ds toks
        if r.1 then
          let out := samplingLoop B r.2 maxTokens
          (tokenEvents B out.toks ++ [SEvent.complete], { s with ds := out.ds })
        else
          ([SEvent.error "Prompt processing failed"], { s with ds := r.2 })

/-- nativeLoadModel (lines 47-216): frees any existing model and context
(emptying the sequence), then loads.  On success the state is loaded with a
fresh empty context.  The prefix-cache record is NOT touched on either path:
lines 65-78 free the context and model but leave g_cached_system_prompt,
g_cached_system_tokens and g_cached_system_length as they were (only
nativeFreeModel clears them, lines 417-420). -/
def nativeLoadModel (B : Backend) (s : SessionState) : Bool × SessionState :=
  if B.loadOk then (true, { loaded := true, ds := [], cache := s.cache })
  else (false, { loaded := false, ds := [], cache := s.cache })

/-- nativeFreeModel (lines 398-423): releases everything and clears the
prefix-cache record. -/
def nativeFreeModel (_s : SessionState) : SessionState :=
  ⟨false, [], ⟨"", [], 0⟩⟩

/-- The spec's Decode State / Prefix Cache coherence invariant: whenever the
record claims count cached prefix tokens, the sequence holds a token at every
position below count that is identical to the record's tokenized prefix. -/
def cacheInv (s : SessionState) : Prop :=
  s.cache.count ≤ s.ds.length ∧ s.cache.count ≤ s.cache.tokens.length ∧
    s.ds.take s.cache.count = s.cache.tokens.take s.cache.count

instance (s : SessionState) : Decidable (cacheInv s) := by
  unfold cacheInv; infer_instance

/-- Concrete oracle for witnesses: loading succeeds, every tokenization
yields the three tokens 1,2,3, every decode succeeds, and the sampler always
draws token 99, which is an end-of-sequence marker. -/
def B0 : Backend :=
  ⟨true, fun _ _ _ => some [1, 2, 3], fun _ _ => true, fun _ => 99,
    fun t => t == 99, fun t => [t]⟩

/-- Concrete oracle for failure witnesses: as B0, but llama_decode fails
exactly on one-token batches (so prompt chunks succeed and the sampling
loop's feedback decode fails), and the sampler always draws the non-EOS
token 7 whose piece is the single ASCII byte 0x41. -/
def B1 : Backend :=
  ⟨true, fun _ _ _ => some [1, 2, 3], fun _ batch => !(batch.length == 1),
    fun _ => 7, fun _ => false, fun _ => [0x41]⟩

/-- An event is a per-token delivery (as opposed to a terminal
onComplete/onError delivery). -/
def isTokEvent : SEvent → Bool
  | SEvent.tok _ => true
  | SEvent.complete => false
  | SEvent.error _ => false

/-- Session states reached along the counterexample trace: load, a cached
generation that populates the prefix cache, then a reload.  nativeLoadModel
frees the context (emptying the sequence) but leaves the prefix-cache record
in place, so after the second load the record still claims 3 cached tokens
while the fresh sequence is empty. -/
def sLoaded : SessionState := (nativeLoadModel B0 initState).2

def sAfterFirst : SessionState := (nativeGenerateWithCache B0 sLoaded "S" "U" 0).2

def sStale : SessionState := (nativeLoadModel B0 sAfterFirst).2

/-- State with the cache populated from the raw prefix "You are helpful". -/
def sHelpful : SessionState :=
  (nativeGenerateWithCache B0 sLoaded "You are helpful" "hi" 0).2

/-- A loaded state on a hit with more resident positions than the cached
count (a previous turn after the prefix). -/
def sHit : SessionState := ⟨true, [1, 2, 3, 4, 5], ⟨"S", [1, 2, 3], 3⟩⟩

/-- A loaded state with residual decode state and a populated cache record,
for frame-condition witnesses. -/
def sPrior : SessionState := ⟨true, [7], ⟨"keep", [4], 1⟩⟩



set_option maxRecDepth 4096 in
theorem cont_byte_range : ∀ b < 256, b &&& 0xC0 = 0x80 → 0x80 ≤ b ∧ b < 0xC0 := by decide

theorem contOk_bounds (b : Nat) (h : contOk b = true) : 0x80 ≤ b ∧ b < 0xC0 := by
  have h' := of_decide_eq_true h
  exact cont_byte_range b h'.1 h'.2

theorem san_ascii (c : Nat) (l : List Nat) (h : c ≤ 0x7F) :
    sanitize (c :: l) = c :: sanitize l := by
  match l with
  | [] => simp [sanitize, h]
  | [c1] => simp [sanitize, h]
  | [c1, c2] => simp [sanitize, h]
  | c1 :: c2 :: c3 :: r => simp [sanitize, h]

theorem san_two (c c1 : Nat) (l : List Nat) (h1 : 0xC0 ≤ c) (h2 : c ≤ 0xDF)
    (hc : c1 &&& 0xC0 = 0x80) :
    sanitize (c :: c1 :: l) = c :: c1 :: sanitize l := by
  have h0 : ¬ c ≤ 0x7F := by omega
  match l with
  | [] => simp [sanitize, h0, h1, h2, hc]
  | [c2] => simp [sanitize, h0, h1, h2, hc]
  | c2 :: c3 :: r => simp [sanitize, h0, h1, h2, hc]

theorem san_three (c c1 c2 : Nat) (l : List Nat) (h1 : 0xE0 ≤ c) (h2 : c ≤ 0xEF)
    (hc1 : c1 &&& 0xC0 = 0x80) (hc2 : c2 &&& 0xC0 = 0x80) :
    sanitize (c :: c1 :: c2 :: l) = c :: c1 :: c2 :: sanitize l := by
  have h0 : ¬ c ≤ 0x7F := by omega
  have h3 : ¬ (0xC0 ≤ c ∧ c ≤ 0xDF) := by omega
  match l with
  | [] => simp [sanitize, h0, h3, h1, h2, hc1, hc2]
  | c3 :: r => simp [sanitize, h0, h3, h1, h2, hc1, hc2]

theorem san_four (c c1 c2 c3 : Nat) (l : List Nat) (h1 : 0xF0 ≤ c) (h2 : c ≤ 0xF7)
    (hc1 : c1 &&& 0xC0 = 0x80) (hc2 : c2 &&& 0xC0 = 0x80) (hc3 : c3 &&& 0xC0 = 0x80) :
    sanitize (c :: c1 :: c2 :: c3 :: l) = c :: c1 :: c2 :: c3 :: sanitize l := by
  have h0 : ¬ c ≤ 0x7F := by omega
  have h3 : ¬ (0xC0 ≤ c ∧ c ≤ 0xDF) := by omega
  have h4 : ¬ (0xE0 ≤ c ∧ c ≤ 0xEF) := by omega
  simp [sanitize, h0, h3, h4, h1, h2, hc1, hc2, hc3]

theorem contOk_bits (b : Nat) (h : contOk b = true) : b &&& 0xC0 = 0x80 :=
  (of_decide_eq_true h).2

theorem sanitize_append_wf (bs : List Nat) (hwf : wfUtf8 bs = true) (t : List Nat) :
    sanitize (bs ++ t) = bs ++ sanitize t := by
  induction bs using wfUtf8.induct with
  | case1 => simp only [List.nil_append]
  | case2 c =>
    have hc : c ≤ 0x7F := by
      unfold wfUtf8 at hwf; exact of_decide_eq_true hwf
    simpa only [List.singleton_append, List.cons_append] using san_ascii c t hc
  | case3 c c1 h ih =>
    unfold wfUtf8 at hwf
    rw [if_pos h] at hwf
    have := ih hwf
    simp only [List.singleton_append, List.cons_append, List.nil_append] at this ⊢
    rw [san_ascii c (c1 :: t) h, this]
  | case4 c c1 h =>
    unfold wfUtf8 at hwf
    rw [if_neg h] at hwf
    simp only [Bool.and_eq_true, decide_eq_true_eq] at hwf
    simp only [List.cons_append, List.singleton_append, List.nil_append]
    rw [san_two c c1 t hwf.1.1 hwf.1.2 (contOk_bits c1 hwf.2)]
  | case5 c c1 c2 h ih =>
    unfold wfUtf8 at hwf
    rw [if_pos h] at hwf
    have := ih hwf
    simp only [List.cons_append, List.singleton_append, List.nil_append] at this ⊢
    rw [san_ascii c (c1 :: c2 :: t) h, this]
  | case6 c c1 c2 hna hcl ih =>
    unfold wfUtf8 at hwf
    rw [if_neg hna, if_pos hcl] at hwf
    simp only [Bool.and_eq_true] at hwf
    have := ih hwf.2
    simp only [List.cons_append, List.singleton_append, List.nil_append] at this ⊢
    rw [san_two c c1 (c2 :: t) hcl.1 hcl.2 (contOk_bits c1 hwf.1), this]
  | case7 c c1 c2 hna hnb =>
    unfold wfUtf8 at hwf
    rw [if_neg hna, if_neg hnb] at hwf
    simp only [Bool.and_eq_true, decide_eq_true_eq] at hwf
    simp only [List.cons_append, List.singleton_append, List.nil_append]
    rw [san_three c c1 c2 t hwf.1.1.1 hwf.1.1.2 (contOk_bits c1 hwf.1.2)
      (contOk_bits c2 hwf.2)]
  | case8 c c1 c2 c3 rest h ih =>
    unfold wfUtf8 at hwf
    rw [if_pos h] at hwf
    have := ih hwf
    simp only [List.cons_append, List.nil_append] at this ⊢
    rw [san_ascii c (c1 :: c2 :: c3 :: (rest ++ t)) h, this]
  | case9 c c1 c2 c3 rest hna hcl ih =>
    unfold wfUtf8 at hwf
    rw [if_neg hna, if_pos hcl] at hwf
    simp only [Bool.and_eq_true] at hwf
    have := ih hwf.2
    simp only [List.cons_append, List.nil_append] at this ⊢
    rw [san_two c c1 (c2 :: c3 :: (rest ++ t)) hcl.1 hcl.2 (contOk_bits c1 hwf.1), this]
  | case10 c c1 c2 c3 rest hna hnb hcl ih =>
    unfold wfUtf8 at hwf
    rw [if_neg hna, if_neg hnb, if_pos hcl] at hwf
    simp only [Bool.and_eq_true] at hwf
    obtain ⟨⟨hco1, hco2⟩, hwr⟩ := hwf
    have := ih hwr
    simp only [List.cons_append, List.nil_append] at this ⊢
    rw [san_three c c1 c2 (c3 :: (rest ++ t)) hcl.1 hcl.2 (contOk_bits c1 hco1)
      (contOk_bits c2 hco2), this]
  | case11 c c1 c2 c3 rest hna hnb hnc ih =>
    unfold wfUtf8 at hwf
    rw [if_neg hna, if_neg hnb, if_neg hnc] at hwf
    simp only [Bool.and_eq_true, decide_eq_true_eq] at hwf
    obtain ⟨⟨⟨⟨hcl, hco1⟩, hco2⟩, hco3⟩, hwr⟩ := hwf
    have := ih hwr
    simp only [List.cons_append, List.nil_append] at this ⊢
    rw [san_four c c1 c2 c3 (rest ++ t) hcl.1 hcl.2 (contOk_bits c1 hco1)
      (contOk_bits c2 hco2) (contOk_bits c3 hco3), this]

theorem sanitize_truncUnit (u : List Nat) (h : truncUnit u = true) : sanitize u = [] := by
  match u with
  | [l] =>
    have hl : 0xC0 ≤ l ∧ l ≤ 0xF7 := by
      unfold truncUnit at h; exact of_decide_eq_true h
    unfold sanitize
    rw [if_neg (by omega : ¬ l ≤ 0x7F)]
  | [l, c1] =>
    unfold truncUnit at h
    simp only [Bool.and_eq_true, decide_eq_true_eq] at h
    obtain ⟨hl, hco⟩ := h
    have hb := contOk_bounds c1 hco
    unfold sanitize
    rw [if_neg (by omega : ¬ l ≤ 0x7F), if_neg (by omega : ¬ (0xC0 ≤ l ∧ l ≤ 0xDF))]
    unfold sanitize
    rw [if_neg (by omega : ¬ c1 ≤ 0x7F)]
  | [l, c1, c2] =>
    unfold truncUnit at h
    simp only [Bool.and_eq_true, decide_eq_true_eq] at h
    obtain ⟨⟨hl, hco1⟩, hco2⟩ := h
    have hb1 := contOk_bounds c1 hco1
    have hb2 := contOk_bounds c2 hco2
    unfold sanitize
    rw [if_neg (by omega : ¬ l ≤ 0x7F), if_neg (by omega : ¬ (0xC0 ≤ l ∧ l ≤ 0xDF)),
      if_neg (by omega : ¬ (0xE0 ≤ l ∧ l ≤ 0xEF))]
    unfold sanitize
    rw [if_neg (by omega : ¬ c1 ≤ 0x7F), if_neg (by omega : ¬ (0xC0 ≤ c1 ∧ c1 ≤ 0xDF))]
    unfold sanitize
    rw [if_neg (by omega : ¬ c2 ≤ 0x7F)]

theorem sanitize_wf_id (bs : List Nat) (hwf : wfUtf8 bs = true) : sanitize bs = bs := by
  have h := sanitize_append_wf bs hwf []
  rw [List.append_nil, show sanitize ([] : List Nat) = [] from rfl,
    List.append_nil] at h
  exact h

theorem ingestChunksF_true (B : Backend) :
    ∀ (fuel : Nat) (toks ds : List Nat), toks.length ≤ fuel →
      (ingestChunksF B fuel ds toks).1 = true →
      (ingestChunksF B fuel ds toks).2 = ds ++ toks := by
  intro fuel
  induction fuel with
  | zero =>
    intro toks ds hlen _
    match toks, hlen with
    | [], _ => simp [ingestChunksF]
  | succ n ih =>
    intro toks ds hlen htrue
    match toks with
    | [] => simp [ingestChunksF]
    | t :: ts =>
      simp only [ingestChunksF] at htrue ⊢
      split at htrue
      · rename_i hd
        rw [if_pos hd]
        have hlen2 : ((t :: ts).drop CHUNK_SIZE).length ≤ n := by
          simp only [List.length_drop, List.length_cons] at *
          simp only [CHUNK_SIZE]
          omega
        rw [ih _ _ hlen2 htrue, List.append_assoc, List.take_append_drop]
      · simp at htrue

theorem ingestChunksF_ext (B : Backend) :
    ∀ (fuel : Nat) (toks ds : List Nat),
      ∃ e, (ingestChunksF B fuel ds toks).2 = ds ++ e := by
  intro fuel
  induction fuel with
  | zero =>
    intro toks ds
    match toks with
    | [] => exact ⟨[], by simp [ingestChunksF]⟩
    | t :: ts => exact ⟨[], by simp [ingestChunksF]⟩
  | succ n ih =>
    intro toks ds
    match toks with
    | [] => exact ⟨[], by simp [ingestChunksF]⟩
    | t :: ts =>
      simp only [ingestChunksF]
      split
      · obtain ⟨e, he⟩ := ih ((t :: ts).drop CHUNK_SIZE) (ds ++ (t :: ts).take CHUNK_SIZE)
        exact ⟨(t :: ts).take CHUNK_SIZE ++ e, by rw [he, List.append_assoc]⟩
      · exact ⟨[], by simp⟩

theorem ingestChunks_true (B : Backend) (ds toks : List Nat)
    (h : (ingestChunks B ds toks).1 = true) :
    (ingestChunks B ds toks).2 = ds ++ toks :=
  ingestChunksF_true B toks.length toks ds le_rfl h

theorem ingestChunks_ext (B : Backend) (ds toks : List Nat) :
    ∃ e, (ingestChunks B ds toks).2 = ds ++ e :=
  ingestChunksF_ext B toks.length toks ds

theorem samplingLoop_toks_length (B : Backend) :
    ∀ (n : Nat) (ds : List Nat), (samplingLoop B ds n).toks.length ≤ n := by
  intro n
  induction n with
  | zero => intro ds; simp [samplingLoop]
  | succ n ih =>
    intro ds
    simp only [samplingLoop]
    split
    · simp
    · split
      · simpa using Nat.succ_le_succ (ih (ds ++ [B.sample ds]))
      · simp

theorem samplingLoop_no_eog (B : Backend) :
    ∀ (n : Nat) (ds : List Nat),
      (∀ t ∈ (samplingLoop B ds n).toks, B.isEog t = false) ∧
      (∃ l, (samplingLoop B ds n).ds = ds ++ l ∧ ∀ t ∈ l, B.isEog t = false) := by
  intro n
  induction n with
  | zero =>
    intro ds
    exact ⟨by simp [samplingLoop], ⟨[], by simp [samplingLoop], by simp⟩⟩
  | succ n ih =>
    intro ds
    simp only [samplingLoop]
    split
    · exact ⟨by simp, ⟨[], by simp, by simp⟩⟩
    · rename_i heog
      have heog' : B.isEog (B.sample ds) = false := by
        simpa using heog
      split
      · obtain ⟨e, he, hne⟩ := (ih (ds ++ [B.sample ds])).2
        constructor
        · intro t ht
          simp only [List.mem_cons] at ht
          rcases ht with rfl | ht
          · exact heog'
          · exact (ih (ds ++ [B.sample ds])).1 t ht
        · refine ⟨B.sample ds :: e, ?_, ?_⟩
          · simpa [List.append_assoc] using he
          · intro t ht
            simp only [List.mem_cons] at ht
            rcases ht with rfl | ht
            · exact heog'
            · exact hne t ht
      · refine ⟨?_, ⟨[], by simp, by simp⟩⟩
        intro t ht
        simp only [List.mem_singleton] at ht
        subst ht
        exact heog'

theorem nativeGenerate_frame (B : Backend) (s : SessionState) (p : String) (n : Nat) :
    (nativeGenerate B s p n).2.loaded = s.loaded ∧
    (nativeGenerate B s p n).2.cache = s.cache ∧
    ∃ e, (nativeGenerate B s p n).2.ds = s.ds ++ e := by
  unfold nativeGenerate
  split
  · exact ⟨rfl, rfl, ⟨[], by simp⟩⟩
  · cases htok : B.tokenize p true true with
    | none => exact ⟨rfl, rfl, ⟨[], by simp⟩⟩
    | some toks =>
      simp only
      split
      · exact ⟨rfl, rfl, ⟨[], by simp⟩⟩
      · split
        · rename_i hr
          refine ⟨rfl, rfl, ?_⟩
          obtain ⟨e1, he1⟩ := ingestChunks_ext B s.ds toks
          obtain ⟨e2, he2, _⟩ :=
            (samplingLoop_no_eog B n (ingestChunks B s.ds toks).2).2
          exact ⟨e1 ++ e2, by dsimp only; rw [he2, he1, List.append_assoc]⟩
        · refine ⟨rfl, rfl, ?_⟩
          obtain ⟨e1, he1⟩ := ingestChunks_ext B s.ds toks
          exact ⟨e1, by simp [he1]⟩

theorem userPhase_frame (B : Backend) (s1 : SessionState) (user : String) (n : Nat) :
    (userPhase B s1 user n).2.loaded = s1.loaded ∧
    (userPhase B s1 user n).2.cache = s1.cache ∧
    ∃ e, (userPhase B s1 user n).2.ds = s1.ds ++ e := by
  unfold userPhase
  cases htok : B.tokenize (fmtUser user) false false with
  | none => exact ⟨rfl, rfl, ⟨[], by simp⟩⟩
  | some uts =>
    simp only
    split
    · exact ⟨rfl, rfl, ⟨[], by simp⟩⟩
    · split
      · rename_i hr
        refine ⟨rfl, rfl, ?_⟩
        obtain ⟨e1, he1⟩ := ingestChunks_ext B s1.ds uts
        obtain ⟨e2, he2, _⟩ :=
          (samplingLoop_no_eog B n (ingestChunks B s1.ds uts).2).2
        exact ⟨e1 ++ e2, by dsimp only; rw [he2, he1, List.append_assoc]⟩
      · refine ⟨rfl, rfl, ?_⟩
        obtain ⟨e1, he1⟩ := ingestChunks_ext B s1.ds uts
        exact ⟨e1, by simp [he1]⟩

theorem streaming_frame (B : Backend) (s : SessionState) (p : String) (n : Nat)
    (v : Bool) :
    (nativeGenerateStreaming B s p n v).2.loaded = s.loaded ∧
    (nativeGenerateStreaming B s p n v).2.cache = s.cache ∧
    ∃ e, (nativeGenerateStreaming B s p n v).2.ds = s.ds ++ e := by
  unfold nativeGenerateStreaming
  split
  · exact ⟨rfl, rfl, ⟨[], by simp⟩⟩
  · split
    · exact ⟨rfl, rfl, ⟨[], by simp⟩⟩
    · cases htok : B.tokenize p true true with
      | none => exact ⟨rfl, rfl, ⟨[], by simp⟩⟩
      | some toks =>
        simp only
        split
        · exact ⟨rfl, rfl, ⟨[], by simp⟩⟩
        · split
          · rename_i hr
            refine ⟨rfl, rfl, ?_⟩
            obtain ⟨e1, he1⟩ := ingestChunks_ext B s.ds toks
            obtain ⟨e2, he2, _⟩ :=
              (samplingLoop_no_eog B n (ingestChunks B s.ds toks).2).2
            exact ⟨e1 ++ e2, by dsimp only; rw [he2, he1, List.append_assoc]⟩
          · refine ⟨rfl, rfl, ?_⟩
            obtain ⟨e1, he1⟩ := ingestChunks_ext B s.ds toks
            exact ⟨e1, by simp [he1]⟩

theorem sysPhase_hit (B : Backend) (s : SessionState) (sys : String)
    (h : cacheHitB sys s.cache = true) :
    sysPhase B s sys = (none, { s with ds := s.ds.take s.cache.count }) := by
  unfold sysPhase
  rw [if_pos h]
  split
  · rfl
  · rename_i hlt
    have hle : s.ds.length ≤ s.cache.count := by omega
    rw [List.take_of_length_le hle]

theorem sysPhase_miss_ok (B : Backend) (s : SessionState) (sys : String)
    (ts : List Nat) (hmiss : cacheHitB sys s.cache = false)
    (htok : B.tokenize (fmtSys sys) true true = some ts) (hne : ts.length ≠ 0)
    (hing : (ingestChunks B [] ts).1 = true) :
    sysPhase B s sys = (none, ⟨s.loaded, ts, ⟨sys, ts, ts.length⟩⟩) := by
  unfold sysPhase
  rw [if_neg (by simp [hmiss]), htok]
  simp only
  rw [if_neg hne]
  have h2 := ingestChunks_true B [] ts hing
  simp only [List.nil_append] at h2
  simp [hing, h2]

theorem cacheInv_extend {s s' : SessionState} (h : cacheInv s)
    (hc : s'.cache = s.cache) (hd : ∃ e, s'.ds = s.ds ++ e) : cacheInv s' := by
  obtain ⟨e, he⟩ := hd
  obtain ⟨h1, h2, h3⟩ := h
  refine ⟨?_, ?_, ?_⟩
  · rw [hc, he, List.length_append]; omega
  · rw [hc]; exact h2
  · rw [hc, he, List.take_append_of_le_length h1, h3]

theorem sysPhase_ok_inv (B : Backend) (s : SessionState) (sys : String)
    (s1 : SessionState) (hinv : cacheInv s)
    (h : sysPhase B s sys = (none, s1)) : cacheInv s1 := by
  unfold sysPhase at h
  by_cases hh : cacheHitB sys s.cache = true
  · rw [if_pos hh] at h
    obtain ⟨h1, h2, h3⟩ := hinv
    split at h
    · obtain rfl : ({ s with ds := s.ds.take s.cache.count } : SessionState) = s1 :=
        congrArg Prod.snd h
      refine ⟨?_, h2, ?_⟩
      · simp only [List.length_take]; omega
      · simp only [List.take_take, Nat.min_self]
        exact h3
    · obtain rfl : s = s1 := congrArg Prod.snd h
      exact ⟨h1, h2, h3⟩
  · rw [if_neg hh] at h
    cases htok : B.tokenize (fmtSys sys) true true with
    | none => rw [htok] at h; exact absurd (congrArg Prod.fst h) (by simp)
    | some ts =>
      rw [htok] at h
      simp only at h
      by_cases hne : ts.length = 0
      · rw [if_pos hne] at h
        exact absurd (congrArg Prod.fst h) (by simp)
      · rw [if_neg hne] at h
        split at h
        · rename_i hing
          have h2 := ingestChunks_true B [] ts hing
          simp only [List.nil_append] at h2
          have hs1 : s1 = ⟨s.loaded, (ingestChunks B [] ts).2, ⟨sys, ts, ts.length⟩⟩ := by
            exact (congrArg Prod.snd h).symm
          rw [hs1, h2]
          exact ⟨le_rfl, le_rfl, rfl⟩
        · exact absurd (congrArg Prod.fst h) (by simp)

theorem withCache_userPhase (B : Backend) (s : SessionState) (sys user : String)
    (n : Nat) (h : s.loaded = true) (s1 : SessionState)
    (hp : sysPhase B s sys = (none, s1)) :
    nativeGenerateWithCache B s sys user n = userPhase B s1 user n := by
  unfold nativeGenerateWithCache
  rw [if_neg (by simp [h]), hp]

theorem tokenEvents_all_tok (B : Backend) (toks : List Nat) :
    ∀ e ∈ tokenEvents B toks, isTokEvent e = true := by
  intro e he
  unfold tokenEvents at he
  obtain ⟨t, _, hf⟩ := List.mem_filterMap.mp he
  by_cases hp : (B.tokenToPiece t).length = 0
  · simp [hp] at hf
  · rw [if_neg hp] at hf
    obtain rfl : SEvent.tok (sanitize (B.tokenToPiece t)) = e := Option.some.inj hf
    rfl

/-- Counterexample to claim C1: along the public-operation trace
loadModel; generateWithCache (miss, caches 3 tokens); loadModel, the record
still claims 3 > 0 cached prefix tokens while the decode state holds no
token at any position, violating the invariant. -/
theorem loadModel_stale_cache_breaks_inv :
    0 < sStale.cache.count ∧ sStale.loaded = true ∧ sStale.ds = [] ∧
      ¬ cacheInv sStale := by decide

/-- Claim C1 (amended): the Decode State / Prefix Cache coherence invariant
is preserved by generate, generateStreaming, unloadModel, and by every
generateWithCache call whose prefix phase does not fail; loadModel (which
keeps the record while emptying the decode state) and a failed miss-path
rebuild are excluded, as the counterexample shows they must be. -/
theorem cacheInv_preserved (B : Backend) (s : SessionState) (p sys user : String)
    (n m : Nat) (v : Bool) (hinv : cacheInv s)
    (hpre : ∃ s1, sysPhase B s sys = (none, s1)) :
    cacheInv (nativeGenerate B s p n).2 ∧
    cacheInv (nativeGenerateStreaming B s p n v).2 ∧
    cacheInv (nativeFreeModel s) ∧
    cacheInv (nativeGenerateWithCache B s sys user m).2 := by
  obtain ⟨s1, hs1⟩ := hpre
  refine ⟨?_, ?_, ?_, ?_⟩
  · exact cacheInv_extend hinv (nativeGenerate_frame B s p n).2.1
      (nativeGenerate_frame B s p n).2.2
  · exact cacheInv_extend hinv (streaming_frame B s p n v).2.1
      (streaming_frame B s p n v).2.2
  · exact (by decide : cacheInv (⟨false, [], ⟨"", [], 0⟩⟩ : SessionState))
  · by_cases hl : s.loaded = true
    · rw [withCache_userPhase B s sys user m hl s1 hs1]
      exact cacheInv_extend (sysPhase_ok_inv B s sys s1 hinv hs1)
        (userPhase_frame B s1 user m).2.1 (userPhase_frame B s1 user m).2.2
    · have hl' : s.loaded = false := by
        cases hb : s.loaded
        · rfl
        · exact absurd hb hl
      unfold nativeGenerateWithCache
      rw [if_pos hl']
      exact hinv

theorem cacheInv_preserved_witness :
    cacheInv (nativeGenerate B0 sLoaded "p" 1).2 ∧
    cacheInv (nativeGenerateStreaming B0 sLoaded "p" 1 true).2 ∧
    cacheInv (nativeFreeModel sLoaded) ∧
    cacheInv (nativeGenerateWithCache B0 sLoaded "S" "U" 1).2 :=
  cacheInv_preserved B0 sLoaded "p" "S" "U" 1 1 true (by decide)
    ⟨⟨true, [1, 2, 3], ⟨"S", [1, 2, 3], 3⟩⟩, by decide⟩

/-- Claim C2: the prefix-cache decision is Hit exactly when the incoming raw
text equals the stored record's raw text and the stored count is positive;
after caching "You are helpful", the same text hits and the same text with a
trailing space misses. -/
theorem cacheHit_iff_exact_match :
    (∀ (sys : String) (c : CacheRecord),
      cacheHitB sys c = true ↔ (sys = c.text ∧ 0 < c.count)) ∧
    cacheHitB "You are helpful" sHelpful.cache = true ∧
    cacheHitB "You are helpful " sHelpful.cache = false := by
  refine ⟨?_, by decide, by decide⟩
  intro sys c
  simp [cacheHitB, Bool.and_eq_true, beq_iff_eq, decide_eq_true_eq]

/-- Claim C3: on a Miss, the entire decode state is cleared first (even when
tokenization then fails), the framed system prefix is tokenized and ingested
through the chunked ingestion engine starting from the emptied sequence, and
only afterwards is the record overwritten with the new text/tokens/count (on
an ingestion failure the old record survives). -/
theorem miss_clears_ingests_overwrites (B : Backend) (s : SessionState)
    (sys : String) (hmiss : cacheHitB sys s.cache = false) :
    (∀ ts, B.tokenize (fmtSys sys) true true = some ts → ts.length ≠ 0 →
      (ingestChunks B [] ts).1 = true →
      sysPhase B s sys = (none, ⟨s.loaded, ts, ⟨sys, ts, ts.length⟩⟩)) ∧
    (B.tokenize (fmtSys sys) true true = none →
      sysPhase B s sys =
        (some "Error: System prompt tokenization failed", ⟨s.loaded, [], s.cache⟩)) ∧
    (∀ ts, B.tokenize (fmtSys sys) true true = some ts → ts.length ≠ 0 →
      (ingestChunks B [] ts).1 = false →
      sysPhase B s sys =
        (some "Error: System prompt processing failed",
          ⟨s.loaded, (ingestChunks B [] ts).2, s.cache⟩)) := by
  refine ⟨?_, ?_, ?_⟩
  · intro ts htok hne hing
    exact sysPhase_miss_ok B s sys ts hmiss htok hne hing
  · intro htok
    unfold sysPhase
    rw [if_neg (by simp [hmiss]), htok]
  · intro ts htok hne hing
    unfold sysPhase
    rw [if_neg (by simp [hmiss]), htok]
    simp only
    rw [if_neg hne]
    simp [hing]

theorem miss_clears_ingests_overwrites_witness :
    sysPhase B0 (⟨true, [9, 9], ⟨"old", [5], 1⟩⟩ : SessionState) "S"
      = (none, ⟨true, [1, 2, 3], ⟨"S", [1, 2, 3], 3⟩⟩) :=
  (miss_clears_ingests_overwrites B0 ⟨true, [9, 9], ⟨"old", [5], 1⟩⟩ "S"
    (by decide)).1 [1, 2, 3] rfl (by decide) (by decide)

/-- Counterexample to claim C4: along the reachable trace behind sStale the
decision is Hit with cachedTokenCount = 3, yet immediately after the
truncation step zero positions are resident (the decode state was emptied by
the reload and the hit path removes nothing), so the subsequent user-turn
ingestion starts at position 0, not 3. -/
theorem hit_with_stale_state_keeps_short_ds :
    cacheHitB "S" sStale.cache = true ∧
    sysPhase B0 sStale "S" = (none, sStale) ∧
    sStale.ds.length = 0 ∧
    sStale.cache.count = 3 := by decide

/-- Claim C4 (amended): on a Hit the decode state is truncated to its first
cachedTokenCount positions, leaving min (previous length) cachedTokenCount
positions resident - exactly cachedTokenCount whenever at least that many
positions were resident on entry (as the C1 invariant provides); the
user-turn ingestion then starts right after these resident positions. -/
theorem hit_truncates_to_cached_count (B : Backend) (s : SessionState)
    (sys : String) (hhit : cacheHitB sys s.cache = true) :
    sysPhase B s sys = (none, { s with ds := s.ds.take s.cache.count }) ∧
    (s.ds.take s.cache.count).length = min s.cache.count s.ds.length ∧
    (s.cache.count ≤ s.ds.length →
      (s.ds.take s.cache.count).length = s.cache.count) := by
  refine ⟨sysPhase_hit B s sys hhit, List.length_take _ _, ?_⟩
  intro h
  rw [List.length_take]
  omega

theorem hit_truncates_to_cached_count_witness :
    sysPhase B0 sHit "S" = (none, { sHit with ds := sHit.ds.take sHit.cache.count }) ∧
    (sHit.ds.take sHit.cache.count).length = min sHit.cache.count sHit.ds.length ∧
    (sHit.cache.count ≤ sHit.ds.length →
      (sHit.ds.take sHit.cache.count).length = sHit.cache.count) :=
  hit_truncates_to_cached_count B0 sHit "S" (by decide)

/-- Counterexample to claim C5: a concrete streaming call in which ingesting
the first sampled token fails (the loop stops with reason ingestFail), yet
the delivered events end with onComplete and no onError fires - the
mid-generation ingestion failure is not reported through the error
capability. -/
theorem streaming_midgen_failure_fires_complete :
    (samplingLoop B1 (ingestChunks B1 sLoaded.ds [1, 2, 3]).2 3).stop
      = StopReason.ingestFail ∧
    (nativeGenerateStreaming B1 sLoaded "pq" 3 true).1
      = [SEvent.tok [0x41], SEvent.complete] := by decide

/-- Claim C5 (amended): provided the callback exposes all three
capabilities, every streaming call delivers exactly one terminal event
(onComplete or onError), strictly after all onToken deliveries; an ingestion
failure during prompt processing is reported through onError, but once
generation has started the call always terminates through onComplete - a
mid-generation ingestion (decode) failure merely stops the loop and is then
reported as completion, not through the error capability. -/
theorem streaming_exactly_one_terminal (B : Backend) (s : SessionState)
    (p : String) (n : Nat) :
    (∃ front term, (nativeGenerateStreaming B s p n true).1 = front ++ [term] ∧
      (∀ e ∈ front, isTokEvent e = true) ∧ isTokEvent term = false) ∧
    (∀ toks, s.loaded = true → B.tokenize p true true = some toks →
      toks.length ≠ 0 → (ingestChunks B s.ds toks).1 = true →
      (nativeGenerateStreaming B s p n true).1
        = tokenEvents B (samplingLoop B (ingestChunks B s.ds toks).2 n).toks
          ++ [SEvent.complete]) := by
  constructor
  · unfold nativeGenerateStreaming
    split
    · exact ⟨[], SEvent.error "Model not loaded", by simp, by simp, rfl⟩
    · split
      · rename_i hv
        exact absurd hv (by decide)
      · cases htok : B.tokenize p true true with
        | none => exact ⟨[], SEvent.error "Tokenization failed", by simp, by simp, rfl⟩
        | some toks =>
          simp only
          split
          · exact ⟨[], SEvent.error "Tokenization failed", by simp, by simp, rfl⟩
          · split
            · exact ⟨tokenEvents B (samplingLoop B (ingestChunks B s.ds toks).2 n).toks,
                SEvent.complete, rfl, tokenEvents_all_tok B _, rfl⟩
            · exact ⟨[], SEvent.error "Prompt processing failed", by simp, by simp, rfl⟩
  · intro toks hld htok hne hing
    unfold nativeGenerateStreaming
    rw [if_neg (by simp [hld]), if_neg (by simp), htok]
    simp only
    rw [if_neg hne]
    simp [hing]

theorem streaming_exactly_one_terminal_witness :
    (∃ front term, (nativeGenerateStreaming B1 sLoaded "pq" 3 true).1 = front ++ [term] ∧
      (∀ e ∈ front, isTokEvent e = true) ∧ isTokEvent term = false) ∧
    (nativeGenerateStreaming B1 sLoaded "pq" 3 true).1
      = tokenEvents B1 (samplingLoop B1 (ingestChunks B1 sLoaded.ds [1, 2, 3]).2 3).toks
        ++ [SEvent.complete] :=
  ⟨(streaming_exactly_one_terminal B1 sLoaded "pq" 3).1,
   (streaming_exactly_one_terminal B1 sLoaded "pq" 3).2 [1, 2, 3] rfl rfl
     (by decide) (by decide)⟩

/-- Claim C6: for both blocking shapes, when the one-token feedback decode
fails mid-generation the loop stops at once and the text accumulated so far
(including the just-sampled token's fragment, appended before the decode
attempt) is sanitized and returned through the success channel, not as an
error string. -/
theorem blocking_ingest_failure_returns_text (B : Backend) (s : SessionState)
    (p sys user : String) (n : Nat) :
    (∀ toks, s.loaded = true → B.tokenize p true true = some toks →
      toks.length ≠ 0 → (ingestChunks B s.ds toks).1 = true →
      (samplingLoop B (ingestChunks B s.ds toks).2 n).stop = StopReason.ingestFail →
      (nativeGenerate B s p n).1 =
        Except.ok (sanitize (render B
          (samplingLoop B (ingestChunks B s.ds toks).2 n).toks))) ∧
    (∀ s1 uts, s.loaded = true → sysPhase B s sys = (none, s1) →
      B.tokenize (fmtUser user) false false = some uts → uts.length ≠ 0 →
      (ingestChunks B s1.ds uts).1 = true →
      (samplingLoop B (ingestChunks B s1.ds uts).2 n).stop = StopReason.ingestFail →
      (nativeGenerateWithCache B s sys user n).1 =
        Except.ok (sanitize (render B
          (samplingLoop B (ingestChunks B s1.ds uts).2 n).toks))) := by
  constructor
  · intro toks hld htok hne hing _
    unfold nativeGenerate
    rw [if_neg (by simp [hld]), htok]
    simp only
    rw [if_neg hne]
    simp [hing]
  · intro s1 uts hld hp htok hne hing _
    rw [withCache_userPhase B s sys user n hld s1 hp]
    unfold userPhase
    rw [htok]
    simp only
    rw [if_neg hne]
    simp [hing]

theorem blocking_ingest_failure_returns_text_witness :
    (nativeGenerate B1 sLoaded "pq" 2).1 =
      Except.ok (sanitize (render B1
        (samplingLoop B1 (ingestChunks B1 sLoaded.ds [1, 2, 3]).2 2).toks)) ∧
    (nativeGenerateWithCache B1 sLoaded "sys" "user" 2).1 =
      Except.ok (sanitize (render B1
        (samplingLoop B1
          (ingestChunks B1 (⟨true, [1, 2, 3], ⟨"sys", [1, 2, 3], 3⟩⟩ :
            SessionState).ds [1, 2, 3]).2 2).toks)) :=
  ⟨(blocking_ingest_failure_returns_text B1 sLoaded "pq" "sys" "user" 2).1
      [1, 2, 3] rfl rfl (by decide) (by decide) (by decide),
   (blocking_ingest_failure_returns_text B1 sLoaded "pq" "sys" "user" 2).2
      ⟨true, [1, 2, 3], ⟨"sys", [1, 2, 3], 3⟩⟩ [1, 2, 3] rfl (by decide) rfl
      (by decide) (by decide) (by decide)⟩

/-- Claim C7: in every step of the sampling loop an end-of-sequence token
stops generation without being emitted and without being ingested: no
emitted token is an EOS marker, and the decode state is only ever extended
with non-EOS tokens. -/
theorem eos_neither_emitted_nor_ingested (B : Backend) (ds : List Nat) (n : Nat) :
    (∀ t ∈ (samplingLoop B ds n).toks, B.isEog t = false) ∧
    (∃ l, (samplingLoop B ds n).ds = ds ++ l ∧ ∀ t ∈ l, B.isEog t = false) :=
  samplingLoop_no_eog B n ds

/-- Claim C8: the sampling loop always terminates (it is a total function of
the budget), emits at most maxTokens tokens, and with a zero budget emits
nothing and completes immediately. -/
theorem sampling_loop_budget_termination (B : Backend) (ds : List Nat) (n : Nat) :
    (samplingLoop B ds n).toks.length ≤ n ∧
    samplingLoop B ds 0 = ⟨[], ds, StopReason.budget⟩ :=
  ⟨samplingLoop_toks_length B n ds, rfl⟩

/-- Claim C9: the text codec is a pure function; on input accepted whole by
the scanner's classifier (in particular any well-formed UTF-8 byte sequence)
it is the identity, and appending a truncated trailing multi-byte codepoint
(its last 1-3 bytes removed) yields exactly the original with the partial
unit dropped and no other byte changed. -/
theorem text_codec_round_trip (bs u : List Nat) (hwf : wfUtf8 bs = true)
    (htr : truncUnit u = true) :
    sanitize bs = bs ∧ sanitize (bs ++ u) = bs := by
  refine ⟨sanitize_wf_id bs hwf, ?_⟩
  rw [sanitize_append_wf bs hwf u, sanitize_truncUnit u htr, List.append_nil]

theorem text_codec_round_trip_witness :
    sanitize [0x48, 0xC3, 0xA9, 0xE4, 0xB8, 0xAD]
      = [0x48, 0xC3, 0xA9, 0xE4, 0xB8, 0xAD] ∧
    sanitize ([0x48, 0xC3, 0xA9, 0xE4, 0xB8, 0xAD] ++ [0xE4, 0xB8])
      = [0x48, 0xC3, 0xA9, 0xE4, 0xB8, 0xAD] :=
  text_codec_round_trip [0x48, 0xC3, 0xA9, 0xE4, 0xB8, 0xAD] [0xE4, 0xB8]
    (by decide) (by decide)

/-- Claim C10: plain generate never touches the prefix-cache record and never
clears or truncates the decode state: the resulting sequence is always the
prior sequence extended in place, and on the successful path the prompt's
tokens and then the generated tokens are appended after the previously
resident positions. -/
theorem generate_frame_no_cache_no_clear (B : Backend) (s : SessionState)
    (p : String) (n : Nat) :
    (nativeGenerate B s p n).2.cache = s.cache ∧
    (∃ e, (nativeGenerate B s p n).2.ds = s.ds ++ e) ∧
    (∀ toks, s.loaded = true → B.tokenize p true true = some toks →
      toks.length ≠ 0 → (ingestChunks B s.ds toks).1 = true →
      ∃ g, (nativeGenerate B s p n).2.ds = s.ds ++ toks ++ g) := by
  refine ⟨(nativeGenerate_frame B s p n).2.1, (nativeGenerate_frame B s p n).2.2, ?_⟩
  intro toks hld htok hne hing
  obtain ⟨g, hg, _⟩ := (samplingLoop_no_eog B n (ingestChunks B s.ds toks).2).2
  refine ⟨g, ?_⟩
  unfold nativeGenerate
  rw [if_neg (by simp [hld]), htok]
  simp only
  rw [if_neg hne]
  split
  · dsimp only
    rw [hg, ingestChunks_true B s.ds toks hing]
  · rename_i hf
    exact absurd hing hf

theorem generate_frame_no_cache_no_clear_witness :
    (nativeGenerate B0 sPrior "p" 2).2.cache = sPrior.cache ∧
    (∃ e, (nativeGenerate B0 sPrior "p" 2).2.ds = sPrior.ds ++ e) ∧
    (∃ g, (nativeGenerate B0 sPrior "p" 2).2.ds = sPrior.ds ++ [1, 2, 3] ++ g) :=
  ⟨(generate_frame_no_cache_no_clear B0 sPrior "p" 2).1,
   (generate_frame_no_cache_no_clear B0 sPrior "p" 2).2.1,
   (generate_frame_no_cache_no_clear B0 sPrior "p" 2).2.2 [1, 2, 3] rfl rfl
     (by decide) (by decide)⟩

end Confidant
